import Mathlib

/-!
Verification of the koi-net GitHub processor node.

Shallow embedding of the Python sources:
  * `processor_github_node/utils.py`           — identifier codec, summaries
  * `processor_github_node/cache_manager.py`   — lock-key normalization, repo lock
  * `processor_github_node/repository.py`      — `process_github_event_bundle`
  * `github_processor_node/index_db.py`        — sqlite-backed index store
  * `github_processor_node/handlers.py`        — bundle / network handlers

Python strings are modelled as `List Char`; dictionaries (JSON payloads) as an
inductive `J`; the sqlite store as association lists; a raised exception as
`Except.error` carrying the message.
-/

namespace KoiGithub

/-- Python strings are modelled as lists of characters. -/
abbrev Str := List Char

/-! ## Identifier codec (utils.py) -/

/-- Namespace tag of repository identifiers, `orn:github.repo:` (utils.py). -/
def ornTag : Str := "orn:github.repo:".data

/-- Embeds `utils.owner_repo_to_repo_rid`:
`f"orn:github.repo:{owner}/{repo}"`. -/
def ownerRepoToRepoRid (owner repo : Str) : Str :=
  ornTag ++ owner ++ '/' :: repo

/-- Python `s.split("/", 1)` restricted to the case where `"/"` occurs:
returns the text before and after the first slash, `none` if there is no
slash (in which case the Python tuple unpacking raises `ValueError`). -/
def splitFirstSlash : Str → Option (Str × Str)
  | [] => none
  | c :: rest =>
    if c = '/' then some ([], rest)
    else match splitFirstSlash rest with
      | none => none
      | some (a, b) => some (c :: a, b)

/-- Embeds `utils.repo_rid_to_owner_repo`.  The Python code checks
`startswith("orn:github.repo:")`, takes the text after the tag
(`split(tag, 1)[1]`, which under the `startswith` guard is `drop 16`), and
unpacks `owner_repo.split("/", 1)`; a failed unpack raises `ValueError`,
re-raised as `ValueError` with the invalid-format message. -/
def repoRidToOwnerRepo (repoRid : Str) : Except Str (Str × Str) :=
  if ornTag.isPrefixOf repoRid then
    match splitFirstSlash (repoRid.drop ornTag.length) with
    | some (owner, repo) => .ok (owner, repo)
    | none => .error ("ValueError: Invalid GitHub repository RID format: ".data ++ repoRid)
  else .error ("ValueError: Invalid GitHub repository RID format: ".data ++ repoRid)

/-! Specification lemmas for `splitFirstSlash`. -/

theorem splitFirstSlash_eq_some {l a b : Str}
    (h : splitFirstSlash l = some (a, b)) : l = a ++ '/' :: b ∧ '/' ∉ a := by
  induction l generalizing a b with
  | nil => simp [splitFirstSlash] at h
  | cons c rest ih =>
    by_cases hc : c = '/'
    · subst hc
      simp [splitFirstSlash] at h
      obtain ⟨ha, hb⟩ := h
      subst ha; subst hb
      simp
    · simp [splitFirstSlash, hc] at h
      rcases hrec : splitFirstSlash rest with _ | ⟨a', b'⟩
      · rw [hrec] at h; simp at h
      · rw [hrec] at h
        simp at h
        obtain ⟨ha, hb⟩ := h
        obtain ⟨hl, hm⟩ := ih hrec
        subst ha; subst hb; subst hl
        constructor
        · simp
        · simp [hm, Ne.symm hc]

theorem splitFirstSlash_append (a b : Str) (ha : '/' ∉ a) :
    splitFirstSlash (a ++ '/' :: b) = some (a, b) := by
  induction a with
  | nil => simp [splitFirstSlash]
  | cons c t ih =>
    have hc : c ≠ '/' := by
      intro h; exact ha (by simp [h])
    have ht : '/' ∉ t := by
      intro h; exact ha (by simp [h])
    simp [splitFirstSlash, hc, ih ht]

theorem splitFirstSlash_eq_none {l : Str} (h : splitFirstSlash l = none) :
    '/' ∉ l := by
  induction l with
  | nil => simp
  | cons c rest ih =>
    by_cases hc : c = '/'
    · subst hc; simp [splitFirstSlash] at h
    · simp [splitFirstSlash, hc] at h
      rcases hrec : splitFirstSlash rest with _ | p
      · simp [Ne.symm hc, ih hrec]
      · rw [hrec] at h; rcases p with ⟨x, y⟩; simp at h

theorem splitFirstSlash_of_mem {l : Str} (h : '/' ∈ l) :
    ∃ a b, splitFirstSlash l = some (a, b) := by
  rcases hs : splitFirstSlash l with _ | ⟨a, b⟩
  · exact absurd h (by simpa using splitFirstSlash_eq_none hs)
  · exact ⟨a, b, rfl⟩

/-- C6 counterexample: the pair `("a/b", "c")` has non-empty segments, yet
decoding the encoded identifier yields `("a", "b/c")`, not `("a/b", "c")`:
the decoder splits on the first slash, which falls inside the owner. -/
theorem c6_roundtrip_counterexample :
    "a/b".data ≠ ([] : Str) ∧ "c".data ≠ ([] : Str) ∧
    repoRidToOwnerRepo (ownerRepoToRepoRid "a/b".data "c".data)
      = .ok ("a".data, "b/c".data) ∧
    ("a".data, "b/c".data) ≠ ("a/b".data, "c".data) := by
  refine ⟨by decide, by decide, by rfl, by decide⟩

/-- C6 (amended): for every `(owner, repo)` pair with non-empty segments in
which the owner contains no slash, decoding the identifier produced by
encoding round-trips with no information loss. -/
theorem c6_roundtrip (owner repo : Str) (how : owner ≠ []) (hr : repo ≠ [])
    (hslash : '/' ∉ owner) :
    repoRidToOwnerRepo (ownerRepoToRepoRid owner repo) = .ok (owner, repo) := by
  unfold repoRidToOwnerRepo ownerRepoToRepoRid
  have hpre : ornTag.isPrefixOf (ornTag ++ owner ++ '/' :: repo) := by
    rw [List.isPrefixOf_iff_prefix, List.append_assoc]
    exact List.prefix_append _ _
  rw [if_pos hpre, List.append_assoc, List.drop_left,
    splitFirstSlash_append owner repo hslash]

/-- C6 witness. -/
theorem c6_roundtrip_witness :
    repoRidToOwnerRepo (ownerRepoToRepoRid "acme".data "widgets".data)
      = .ok ("acme".data, "widgets".data) :=
  c6_roundtrip "acme".data "widgets".data (by decide) (by decide) (by decide)

/-- C7 counterexample: the input `orn:github.repo:/widgets` has an empty
first segment after the namespace tag, which per the claim must fail with
`MalformedIdentifier`; the code succeeds and returns the empty owner. -/
theorem c7_counterexample :
    repoRidToOwnerRepo "orn:github.repo:/widgets".data
      = .ok (([] : Str), "widgets".data) := by
  rfl

/-- C7 (amended): decoding fails exactly when the input lacks the namespace
tag `orn:github.repo:` or the remainder contains no slash; on success it
returns the remainder split at its first slash — the two segments are not
checked for non-emptiness and may be empty. -/
theorem c7_decode_characterization (l : Str) :
    ((∃ p, repoRidToOwnerRepo l = .ok p)
        ↔ (ornTag.isPrefixOf l ∧ '/' ∈ l.drop ornTag.length))
    ∧ (∀ owner repo, repoRidToOwnerRepo l = .ok (owner, repo) →
        l.drop ornTag.length = owner ++ '/' :: repo ∧ '/' ∉ owner) := by
  constructor
  · constructor
    · rintro ⟨p, hp⟩
      unfold repoRidToOwnerRepo at hp
      by_cases hpre : ornTag.isPrefixOf l
      · rw [if_pos hpre] at hp
        rcases hs : splitFirstSlash (l.drop ornTag.length) with _ | ⟨a, b⟩
        · rw [hs] at hp; simp at hp
        · have := splitFirstSlash_eq_some hs
          exact ⟨hpre, by rw [this.1]; simp⟩
      · rw [if_neg hpre] at hp; simp at hp
    · rintro ⟨hpre, hmem⟩
      obtain ⟨a, b, hs⟩ := splitFirstSlash_of_mem hmem
      exact ⟨(a, b), by unfold repoRidToOwnerRepo; rw [if_pos hpre, hs]⟩
  · intro owner repo h
    unfold repoRidToOwnerRepo at h
    by_cases hpre : ornTag.isPrefixOf l
    · rw [if_pos hpre] at h
      rcases hs : splitFirstSlash (l.drop ornTag.length) with _ | ⟨a, b⟩
      · rw [hs] at h; simp at h
      · rw [hs] at h
        simp at h
        obtain ⟨ha, hb⟩ := h
        subst ha; subst hb
        exact splitFirstSlash_eq_some hs
    · rw [if_neg hpre] at h; simp at h

/-- C7 witness. -/
theorem c7_decode_witness :
    "orn:github.repo:acme/widgets".data.drop ornTag.length
      = "acme".data ++ '/' :: "widgets".data ∧ '/' ∉ "acme".data :=
  (c7_decode_characterization "orn:github.repo:acme/widgets".data).2
    "acme".data "widgets".data (by rfl)

/-! ## Lock-key derivation (utils.repo_rid_to_dirname, cache_manager.get_repo_dir) -/

/-- Python `s.replace("/", "__")`: every slash becomes two underscores. -/
def replaceSlashes : Str → Str
  | [] => []
  | c :: t => if c = '/' then '_' :: '_' :: replaceSlashes t else c :: replaceSlashes t

/-- Embeds `utils.repo_rid_to_dirname`: check the namespace tag, take the
owner/repo remainder, replace slashes with double underscores and append
the `.git` marker. -/
def repoRidToDirname (repoRid : Str) : Except Str Str :=
  if ornTag.isPrefixOf repoRid then
    .ok (replaceSlashes (repoRid.drop ornTag.length) ++ ".git".data)
  else .error ("ValueError: Invalid GitHub repository RID format: ".data ++ repoRid)

/-- Python `path.split("/")` (single-character separator, empty segments kept). -/
def splitSlash : Str → List Str
  | [] => [[]]
  | c :: t =>
    if c = '/' then [] :: splitSlash t
    else match splitSlash t with
      | [] => [[c]]
      | h :: r => (c :: h) :: r

/-- Python `"/".join(parts)`. -/
def joinSlash : List Str → Str
  | [] => []
  | [x] => x
  | x :: xs => x ++ '/' :: joinSlash xs

/-- Number of significant leading slashes in CPython `posixpath.normpath`:
2 when the path starts with exactly two slashes, otherwise 1 when it starts
with a slash, else 0. -/
def leadSlashes (p : Str) : Nat :=
  if "//".data.isPrefixOf p ∧ ¬ "///".data.isPrefixOf p then 2
  else if ['/'].isPrefixOf p then 1 else 0

/-- The component loop of CPython `posixpath.normpath`: skip empty and `.`
components; append any other component unless it is `..` and can cancel a
previous real component; a `..` at the root of an absolute path is dropped.
The accumulator holds the kept components in reverse order. -/
def normpathComps (abs2 : Bool) : List Str → List Str → List Str
  | acc, [] => acc.reverse
  | acc, comp :: rest =>
    if comp = [] ∨ comp = ['.'] then normpathComps abs2 acc rest
    else if comp ≠ "..".data ∨ (abs2 = false ∧ acc = []) ∨ acc.head? = some "..".data then
      normpathComps abs2 (comp :: acc) rest
    else
      match acc with
      | [] => normpathComps abs2 [] rest
      | _ :: accT => normpathComps abs2 accT rest

/-- CPython `posixpath.normpath`. -/
def normpath (p : Str) : Str :=
  if p = [] then ['.']
  else
    let slashes := leadSlashes p
    let body := joinSlash (normpathComps (slashes != 0) [] (splitSlash p))
    let res := List.replicate slashes '/' ++ body
    if res = [] then ['.'] else res

/-- CPython `posixpath.join` for two arguments: an absolute second argument
wins; otherwise concatenate, inserting a slash unless the first part is
empty or already ends in one. -/
def pathJoin (a b : Str) : Str :=
  if ['/'].isPrefixOf b then b
  else if a = [] ∨ a.getLast? = some '/' then a ++ b
  else a ++ '/' :: b

/-- CPython `posixpath.abspath` relative to a current working directory
`cwd`: join a relative path onto `cwd`, then normalize. -/
def abspath (cwd p : Str) : Str :=
  normpath (if ['/'].isPrefixOf p then p else pathJoin cwd p)

/-- Embeds `cache_manager.get_repo_dir`:
`os.path.abspath(os.path.normpath(os.path.join(base_path, dir_name)))`
over the sanitized directory name of the repository identifier. -/
def getRepoDir (cwd basePath repoRid : Str) : Except Str Str :=
  if ornTag.isPrefixOf repoRid then
    match repoRidToDirname repoRid with
    | .ok dirName => .ok (abspath cwd (normpath (pathJoin basePath dirName)))
    | .error e => .error e
  else .error ("ValueError: Invalid GitHub repository RID format: ".data ++ repoRid)

/-- Embeds the key normalization of `cache_manager.with_repo_lock` and
`cache_manager.get_repo_lock`:
`repo_dir = os.path.abspath(os.path.normpath(repo_dir))`. -/
def lockKeyOf (cwd repoDir : Str) : Str := abspath cwd (normpath repoDir)

theorem slash_not_mem_replaceSlashes (r : Str) : '/' ∉ replaceSlashes r := by
  induction r with
  | nil => simp [replaceSlashes]
  | cons c t ih =>
    by_cases hc : c = '/'
    · subst hc
      have hstep : replaceSlashes ('/' :: t) = '_' :: '_' :: replaceSlashes t := by
        simp [replaceSlashes]
      rw [hstep]
      intro hmem
      rcases List.mem_cons.mp hmem with h | hmem2
      · exact absurd h (by decide)
      · rcases List.mem_cons.mp hmem2 with h | h
        · exact absurd h (by decide)
        · exact ih h
    · have hstep : replaceSlashes (c :: t) = c :: replaceSlashes t := by
        simp [replaceSlashes, hc]
      rw [hstep]
      intro hmem
      rcases List.mem_cons.mp hmem with h | h
      · exact hc h.symm
      · exact ih h

theorem replaceSlashes_injOn {s t : Str} (hs : '_' ∉ s) (ht : '_' ∉ t)
    (h : replaceSlashes s = replaceSlashes t) : s = t := by
  induction s generalizing t with
  | nil =>
    cases t with
    | nil => rfl
    | cons c t' =>
      by_cases hc : c = '/' <;> simp [replaceSlashes, hc] at h
  | cons c s' ih =>
    cases t with
    | nil =>
      by_cases hc : c = '/' <;> simp [replaceSlashes, hc] at h
    | cons d t' =>
      have hs' : '_' ∉ s' := fun hm => hs (by simp [hm])
      have ht' : '_' ∉ t' := fun hm => ht (by simp [hm])
      by_cases hc : c = '/' <;> by_cases hd : d = '/'
      · subst hc; subst hd
        have h2 : replaceSlashes s' = replaceSlashes t' := by
          simpa [replaceSlashes] using h
        rw [ih hs' ht' h2]
      · subst hc
        simp [replaceSlashes, hd] at h
        exact (ht (by rw [← h.1]; simp)).elim
      · subst hd
        simp [replaceSlashes, hc] at h
        exact (hs (by rw [h.1]; simp)).elim
      · simp [replaceSlashes, hc, hd] at h
        rw [h.1, ih hs' ht' h.2]

theorem dirname_not_slash_headed (r : Str) :
    ¬ ['/'].isPrefixOf (replaceSlashes r ++ ".git".data) := by
  intro h
  cases hrep : replaceSlashes r with
  | nil =>
    rw [hrep] at h
    exact absurd h (by decide)
  | cons c t =>
    rw [hrep] at h
    simp only [List.cons_append, List.isPrefixOf, Bool.and_eq_true,
      beq_iff_eq] at h
    exact slash_not_mem_replaceSlashes r (by rw [hrep, ← h.1]; simp)

theorem pathJoin_eq_append (a b : Str) (hb : ¬ ['/'].isPrefixOf b) :
    ∃ t, pathJoin a b = a ++ t := by
  unfold pathJoin
  rw [if_neg hb]
  by_cases h : a = [] ∨ a.getLast? = some '/'
  · rw [if_pos h]; exact ⟨b, rfl⟩
  · rw [if_neg h]; exact ⟨'/' :: b, rfl⟩

theorem pathJoin_dotSlash (base d : Str) (hbase : base ≠ [])
    (hd : ¬ ['/'].isPrefixOf d) :
    pathJoin ('.' :: '/' :: base) d = '.' :: '/' :: pathJoin base d := by
  unfold pathJoin
  rw [if_neg hd, if_neg hd]
  have hlast : ('.' :: '/' :: base).getLast? = base.getLast? := by
    have hrepr : ('.' :: '/' :: base) = ['.', '/'] ++ base := rfl
    rw [hrepr, List.getLast?_append_of_ne_nil _ hbase]
  by_cases h : base.getLast? = some '/'
  · rw [if_pos (Or.inr h), if_pos (Or.inr (by rw [hlast]; exact h))]
    simp
  · have hc1 : ¬ ('.' :: '/' :: base = [] ∨ ('.' :: '/' :: base).getLast? = some '/') := by
      rintro (h1 | h2)
      · simp at h1
      · rw [hlast] at h2; exact h h2
    have hc2 : ¬ (base = [] ∨ base.getLast? = some '/') := by
      rintro (h1 | h2)
      · exact hbase h1
      · exact h h2
    rw [if_neg hc1, if_neg hc2]
    simp

theorem normpathComps_dot (b : Bool) (acc rest : List Str) :
    normpathComps b acc (['.'] :: rest) = normpathComps b acc rest := by
  simp [normpathComps]

theorem normpath_dotSlash (q : Str) (hq : q ≠ []) (hrel : ¬ ['/'].isPrefixOf q) :
    normpath ('.' :: '/' :: q) = normpath q := by
  have h1 : ('.' :: '/' :: q) ≠ [] := by simp
  have hlead1 : leadSlashes ('.' :: '/' :: q) = 0 := by
    simp [leadSlashes, List.isPrefixOf]
  have hlead2 : leadSlashes q = 0 := by
    cases q with
    | nil => exact absurd rfl hq
    | cons c t =>
      have hc : ¬ ('/' = c) := by
        intro h
        exact hrel (by simp [List.isPrefixOf, ← h])
      simp [leadSlashes, List.isPrefixOf, hc]
  have hsplit : splitSlash ('.' :: '/' :: q) = ['.'] :: splitSlash q := by
    simp [splitSlash]
  simp only [normpath, if_neg h1, if_neg hq, hlead1, hlead2, hsplit,
    normpathComps_dot]

/-- C8 counterexample: the distinct identifiers `orn:github.repo:a__b/c`
and `orn:github.repo:a/b__c` both derive the directory name `a__b__c.git`
and therefore the same lock key for any fixed base path, so the lock-key
derivation is not injective. -/
theorem c8_lock_key_counterexample :
    "orn:github.repo:a__b/c".data ≠ "orn:github.repo:a/b__c".data ∧
    getRepoDir "/srv".data "repos".data "orn:github.repo:a__b/c".data
      = getRepoDir "/srv".data "repos".data "orn:github.repo:a/b__c".data := by
  exact ⟨by decide, by rfl⟩

/-- C8 (amended): the derivation is stable — the same identifier with the
same base always yields the same key, and an equivalent relative spelling
of the base (a redundant leading `./`) is normalized away before use as a
key — but it is injective only on identifiers whose owner/repo part is
underscore-free: for such identifiers, distinct identifiers never map to the
same directory name (identifiers with underscores may collide, as the
counterexample shows). -/
theorem c8_lock_key_stability_and_restricted_injectivity
    (s t : Str) (hs : '_' ∉ s) (ht : '_' ∉ t) (hne : s ≠ t)
    (cwd base : Str) (hbase : base ≠ []) (hbaseRel : ¬ ['/'].isPrefixOf base) :
    repoRidToDirname (ornTag ++ s) ≠ repoRidToDirname (ornTag ++ t)
    ∧ ∀ rid, getRepoDir cwd ('.' :: '/' :: base) rid = getRepoDir cwd base rid := by
  constructor
  · intro h
    have hps : ornTag.isPrefixOf (ornTag ++ s) := by
      rw [List.isPrefixOf_iff_prefix]; exact List.prefix_append _ _
    have hpt : ornTag.isPrefixOf (ornTag ++ t) := by
      rw [List.isPrefixOf_iff_prefix]; exact List.prefix_append _ _
    unfold repoRidToDirname at h
    rw [if_pos hps, if_pos hpt, List.drop_left, List.drop_left] at h
    simp only [Except.ok.injEq] at h
    exact hne (replaceSlashes_injOn hs ht (List.append_cancel_right h))
  · intro rid
    unfold getRepoDir
    by_cases hpre : ornTag.isPrefixOf rid
    · have hdir : repoRidToDirname rid
          = .ok (replaceSlashes (rid.drop ornTag.length) ++ ".git".data) := by
        unfold repoRidToDirname
        rw [if_pos hpre]
      rw [if_pos hpre, if_pos hpre, hdir]
      dsimp only
      have hd := dirname_not_slash_headed (rid.drop ornTag.length)
      obtain ⟨tl, htl⟩ := pathJoin_eq_append base _ hd
      have hq : pathJoin base (replaceSlashes (rid.drop ornTag.length) ++ ".git".data) ≠ [] := by
        rw [htl]
        cases base with
        | nil => exact absurd rfl hbase
        | cons c b' => simp
      have hqrel : ¬ ['/'].isPrefixOf
          (pathJoin base (replaceSlashes (rid.drop ornTag.length) ++ ".git".data)) := by
        rw [htl]
        cases base with
        | nil => exact absurd rfl hbase
        | cons c b' =>
          have hc : ¬ ('/' = c) := by
            intro h
            exact hbaseRel (by simp [List.isPrefixOf, ← h])
          simp [List.isPrefixOf, hc]
      rw [pathJoin_dotSlash base _ hbase hd, normpath_dotSlash _ hq hqrel]
    · rw [if_neg hpre, if_neg hpre]

/-- C8 witness. -/
theorem c8_lock_key_witness :
    repoRidToDirname (ornTag ++ "acme/widgets".data)
      ≠ repoRidToDirname (ornTag ++ "acme/gadgets".data)
    ∧ ∀ rid, getRepoDir "/home".data ('.' :: '/' :: "repos".data) rid
        = getRepoDir "/home".data "repos".data rid :=
  c8_lock_key_stability_and_restricted_injectivity
    "acme/widgets".data "acme/gadgets".data (by decide) (by decide) (by decide)
    "/home".data "repos".data (by decide) (by decide)

/-! ## JSON payloads

Python dictionaries and JSON payload trees are modelled by `J`; strings,
integers and `None` cover every value the processor touches.  Exceptions
raised by dictionary access (`KeyError`, `TypeError`, `AttributeError`)
are modelled by `Except.error` with the message. -/

inductive J where
  | str (v : Str)
  | num (v : Int)
  | obj (fields : List (Str × J))
  | null

/-- Association-list lookup, the model of Python dictionary lookup
(last-write-wins is irrelevant here: payloads are read-only). -/
def alook {α : Type} (k : Str) : List (Str × α) → Option α
  | [] => none
  | (k2, v) :: t => if k2 = k then some v else alook k t

/-- Python `str(x)` as used in f-strings, for the value kinds the processor
renders.  The rendering of a nested dictionary is abbreviated; no claim
depends on it. -/
def jshow : J → Str
  | .str v => v
  | .num n => (toString n).data
  | .null => "None".data
  | .obj _ => "dict".data

/-- Python truthiness of a payload value. -/
def jTruthy : J → Bool
  | .null => false
  | .str v => !v.isEmpty
  | .num n => n != 0
  | .obj fields => !fields.isEmpty

/-- Whether `needle` occurs as a contiguous substring of the haystack
(Python `needle in haystack` for strings). -/
def containsSub (needle : Str) : Str → Bool
  | [] => needle.isEmpty
  | c :: t => needle.isPrefixOf (c :: t) || containsSub needle t

/-- Python `k in payload`: key membership for a dictionary, substring test
for a string, `TypeError` otherwise. -/
def pyIn (k : Str) (p : J) : Except Str Bool :=
  match p with
  | .obj fields => .ok (alook k fields).isSome
  | .str v => .ok (containsSub k v)
  | _ => .error "TypeError: argument is not iterable".data

/-- Python subscript `payload[k]`: `KeyError` when the key is missing,
`TypeError` when the value is not a dictionary. -/
def jindex (p : J) (k : Str) : Except Str J :=
  match p with
  | .obj fields =>
    match alook k fields with
    | some v => .ok v
    | none => .error ("KeyError: ".data ++ k)
  | _ => .error "TypeError: object is not subscriptable".data

/-- Python `payload.get(k, default)`: total on dictionaries,
`AttributeError` on anything else. -/
def jget (p : J) (k : Str) (dflt : J) : Except Str J :=
  match p with
  | .obj fields => .ok ((alook k fields).getD dflt)
  | _ => .error "AttributeError: object has no attribute get".data

/-- Python `j == "v"` for a payload value against a string literal:
true only for an equal string, false (never an error) otherwise. -/
def isStrEq (j : J) (v : Str) : Bool :=
  match j with
  | .str s => s = v
  | _ => false

/-! ## Index store (index_db.py)

The sqlite tables are modelled as association lists; each index_db function
commits once at its end, so each is one atomic state transformation.
`CURRENT_TIMESTAMP` is modelled by an explicit `now` argument. -/

structure RepoRow where
  url : Str
  firstIndexed : Nat
  lastUpdated : Nat
deriving DecidableEq

structure EventRow where
  repoRid : Str
  eventType : Str
  timestamp : Str
  commitSha : Option Str
  summary : Str
  bundleRid : Option Str
deriving DecidableEq

structure DB where
  repos : List (Str × RepoRow)
  events : List (Str × EventRow)
deriving DecidableEq

/-- Embeds `index_db.add_repository`: update URL and last-updated when the
repository row exists, otherwise insert a fresh row.  One transaction. -/
def addRepository (now : Nat) (db : DB) (repoRid url : Str) : DB :=
  match alook repoRid db.repos with
  | some _ =>
    { db with repos := db.repos.map fun q =>
        if q.1 = repoRid then (q.1, { q.2 with url := url, lastUpdated := now }) else q }
  | none => { db with repos := db.repos ++ [(repoRid, ⟨url, now, now⟩)] }

/-- Embeds `index_db.add_event_metadata`: `INSERT OR REPLACE` of the event
row keyed by `event_rid`, then — in the same transaction (a single commit
covers both statements) — insert a placeholder repository row with URL
`orn:<repo_rid>` when the referenced repository is absent. -/
def addEventMetadata (now : Nat) (db : DB) (eventRid repoRid eventType timestamp : Str)
    (commitSha : Option Str) (summary : Str) (bundleRid : Option Str) : DB :=
  { repos :=
      match alook repoRid db.repos with
      | some _ => db.repos
      | none => db.repos ++ [(repoRid, ⟨"orn:".data ++ repoRid, now, now⟩)],
    events := db.events.filter (fun q => q.1 != eventRid)
      ++ [(eventRid, ⟨repoRid, eventType, timestamp, commitSha, summary, bundleRid⟩)] }

/-- Failure injection for the store: which sqlite call raises.  A failed
call is a failed transaction and leaves the database unchanged (each
index_db function is a single transaction); the exception is the error. -/
structure FailSpec where
  failAddRepo : Bool
  failAddEvent : Bool
deriving DecidableEq

def noFail : FailSpec := ⟨false, false⟩

def addRepositoryOp (fs : FailSpec) (now : Nat) (db : DB) (repoRid url : Str) :
    Except Str DB :=
  if fs.failAddRepo then .error "sqlite3.OperationalError: database is locked".data
  else .ok (addRepository now db repoRid url)

def addEventMetadataOp (fs : FailSpec) (now : Nat) (db : DB)
    (eventRid repoRid eventType timestamp : Str) (commitSha : Option Str)
    (summary : Str) (bundleRid : Option Str) : Except Str DB :=
  if fs.failAddEvent then .error "sqlite3.OperationalError: database is locked".data
  else .ok (addEventMetadata now db eventRid repoRid eventType timestamp commitSha summary bundleRid)

/-! ## Event summaries (utils.summarize_event) -/

/-- Python truthiness of an optional commit SHA (`if commit_sha:`):
false for `None` and for the empty string. -/
def optTruthy : Option Str → Bool
  | some v => !v.isEmpty
  | none => false

/-- Python `s.replace("_", " ")`. -/
def replaceUnderscoreSpace : Str → Str
  | [] => []
  | c :: t => (if c = '_' then ' ' else c) :: replaceUnderscoreSpace t

def pyTitleGo (prevAlpha : Bool) : Str → Str
  | [] => []
  | c :: t =>
    if c.isAlpha then
      (if prevAlpha then c.toLower else c.toUpper) :: pyTitleGo true t
    else c :: pyTitleGo false t

/-- Python `s.title()`: capitalize the first letter of each alphabetic run. -/
def pyTitle (l : Str) : Str := pyTitleGo false l

/-- The conditional expression
`additional_info.get(k, default) if additional_info else default`
from `utils.summarize_event`, rendered to a string. -/
def infoGet (info : J) (k : Str) (dflt : Str) : Except Str Str :=
  if jTruthy info then
    match info with
    | .obj fields => .ok (jshow ((alook k fields).getD (J.str dflt)))
    | _ => .error "AttributeError: object has no attribute get".data
  else .ok dflt

/-- Embeds `utils.summarize_event`.  The `repo_rid_to_owner_repo` failure is
caught and replaced by `unknown/unknown`; a `.get` on a non-dictionary
`additional_info` raises. -/
def summarizeEvent (eventType repoRid : Str) (commitSha : Option Str) (info : J) :
    Except Str Str :=
  let ownerRepo := match repoRidToOwnerRepo repoRid with
    | .ok q => q
    | .error _ => ("unknown".data, "unknown".data)
  let owner := ownerRepo.1
  let repo := ownerRepo.2
  if eventType = "push".data then
    if optTruthy commitSha then
      .ok ("Push to ".data ++ owner ++ '/' :: repo ++ ": ".data
        ++ (commitSha.getD []).take 7)
    else .ok ("Push to ".data ++ owner ++ '/' :: repo)
  else if eventType = "pull_request".data then
    match infoGet info "action".data "updated".data, infoGet info "number".data "unknown".data with
    | .ok action, .ok num =>
      .ok ("Pull request #".data ++ num ++ ' ' :: action ++ " in ".data ++ owner ++ '/' :: repo)
    | .error e, _ => .error e
    | _, .error e => .error e
  else if eventType = "issues".data then
    match infoGet info "action".data "updated".data, infoGet info "number".data "unknown".data with
    | .ok action, .ok num =>
      .ok ("Issue #".data ++ num ++ ' ' :: action ++ " in ".data ++ owner ++ '/' :: repo)
    | .error e, _ => .error e
    | _, .error e => .error e
  else if eventType = "release".data then
    match infoGet info "tag_name".data "unknown".data with
    | .ok tag => .ok ("Release ".data ++ tag ++ " created in ".data ++ owner ++ '/' :: repo)
    | .error e => .error e
  else
    .ok (pyTitle (replaceUnderscoreSpace eventType) ++ " event in ".data ++ owner ++ '/' :: repo)

/-! ## Payload normalization (repository.py lines 44-90) -/

/-- Python `list.index` (first occurrence; callers guard membership). -/
def idxOf (a : Str) : List Str → Nat
  | [] => 0
  | x :: t => if x = a then 0 else idxOf a t + 1

/-- The commit-URL owner/repo extraction of the backfill-commit branch:
split on slashes, locate the `repos` segment, take the next two segments;
`ValueError` when the segment is absent or fewer than two segments follow. -/
def parseReposSegs (parts : List Str) (commitUrl : Str) : Except Str (Str × Str) :=
  if "repos".data ∈ parts then
    if parts.length > idxOf "repos".data parts + 2 then
      .ok (parts.getD (idxOf "repos".data parts + 1) [],
           parts.getD (idxOf "repos".data parts + 2) [])
    else .error ("ValueError: Cannot parse owner/repo from URL: ".data ++ commitUrl)
  else .error ("ValueError: Cannot parse repository from commit URL: ".data ++ commitUrl)

def parseCommitUrl (commitUrl : Str) : Except Str (Str × Str) :=
  parseReposSegs (splitSlash commitUrl) commitUrl

/-- Result of the classification chain: a recognized payload carries
`(owner, repo, repoUrl, eventSource)`; unknown backfill kinds and
unrecognized shapes are skips; a raised exception is a failure. -/
inductive NormResult where
  | recognized (owner repo repoUrl eventSource : Str)
  | skipUnknownBackfill (msg : Str)
  | skipUnrecognized
  | failed (msg : Str)
deriving DecidableEq

def ofNormE : Except Str (Str × Str × Str × Str) → NormResult
  | .ok (o, r, u, es) => .recognized o r u es
  | .error e => .failed e

/-- The webhook branch (repository.py lines 45-50): owner from
`repository.owner.login`, repo from `repository.name`, URL from
`repository.clone_url`, event source from `event_type` defaulting to
`push`. -/
def webhookNorm (p : J) : NormResult :=
  ofNormE
    (jindex p "repository".data >>= fun repoObj =>
     jindex repoObj "owner".data >>= fun ownerObj =>
     jindex ownerObj "login".data >>= fun ownerVal =>
     jindex repoObj "name".data >>= fun nameVal =>
     jindex repoObj "clone_url".data >>= fun urlVal =>
     jget p "event_type".data (J.str "push".data) >>= fun etVal =>
     .ok (jshow ownerVal, jshow nameVal, jshow urlVal, jshow etVal))

/-- The backfill branch (repository.py lines 51-83): dispatch on
`event_source_type` — repository details, then commit (owner/repo parsed
out of the commit API URL), then the unknown-kind skip. -/
def backfillNorm (p : J) : NormResult :=
  match jindex p "event_source_type".data with
  | .error e => .failed e
  | .ok est =>
    match est with
    | .str v =>
      if v = "backfill_repo_details".data then
        ofNormE
          (jindex p "payload".data >>= fun pl =>
           jindex pl "owner".data >>= fun ownerObj =>
           jindex ownerObj "login".data >>= fun ownerVal =>
           jindex pl "name".data >>= fun nameVal =>
           jindex pl "clone_url".data >>= fun urlVal =>
           .ok (jshow ownerVal, jshow nameVal, jshow urlVal, "repository".data))
      else if v = "backfill_commit".data then
        ofNormE
          (jindex p "payload".data >>= fun pl =>
           jindex pl "url".data >>= fun urlVal =>
           match urlVal with
           | .str u =>
             parseCommitUrl u >>= fun ownerRepo =>
             .ok (ownerRepo.1, ownerRepo.2,
               "https://github.com/".data ++ ownerRepo.1 ++ '/' :: ownerRepo.2 ++ ".git".data,
               "commit".data)
           | _ => .error "AttributeError: object has no attribute split".data)
      else .skipUnknownBackfill ("Unknown backfill event type: ".data ++ v)
    | _ => .skipUnknownBackfill ("Unknown backfill event type: ".data ++ jshow est)

/-- The classification chain of `process_github_event_bundle`
(repository.py lines 44-90): webhook shape first, then the backfill shapes
(guarded by the short-circuit `"event_source_type" in payload and
"payload" in payload`), then the unrecognized skip. -/
def normalizePayload (p : J) : NormResult :=
  match pyIn "repository".data p with
  | .error e => .failed e
  | .ok true => webhookNorm p
  | .ok false =>
    match pyIn "event_source_type".data p with
    | .error e => .failed e
    | .ok false => .skipUnrecognized
    | .ok true =>
      match pyIn "payload".data p with
      | .error e => .failed e
      | .ok false => .skipUnrecognized
      | .ok true => backfillNorm p

/-- Commit extraction (repository.py lines 100-116): for a backfill commit
the SHA, author date and message come from the nested commit object; for a
webhook with `head_commit` the `.get` chain with defaults is used; raw
commit-SHA truthiness is preserved by returning the payload value. -/
def headCommitExtract (p : J) : Except Str (J × Str × Str) :=
  match pyIn "head_commit".data p with
  | .error e => .error e
  | .ok true =>
    jget p "head_commit".data (J.obj []) >>= fun cp =>
    jget cp "id".data J.null >>= fun shaVal =>
    jget cp "timestamp".data (J.str []) >>= fun tsVal =>
    jget cp "message".data (J.str []) >>= fun msgVal =>
    .ok (shaVal, jshow tsVal, jshow msgVal)
  | .ok false => .ok (J.null, [], [])

def extractCommit (p : J) : Except Str (J × Str × Str) :=
  match pyIn "event_source_type".data p with
  | .error e => .error e
  | .ok true =>
    jindex p "event_source_type".data >>= fun est =>
    if isStrEq est "backfill_commit".data then
      jindex p "payload".data >>= fun pl =>
      jindex pl "sha".data >>= fun shaVal =>
      jindex pl "commit".data >>= fun ci =>
      jindex ci "author".data >>= fun au =>
      jindex au "date".data >>= fun dateVal =>
      jindex ci "message".data >>= fun _msgVal =>
      .ok (shaVal, jshow dateVal, jshow _msgVal)
    else headCommitExtract p
  | .ok false => headCommitExtract p

/-- Event-type determination (repository.py lines 119-122): the source kind
computed during normalization for backfill payloads, otherwise
`payload.get("event_type", "push")`. -/
def eventTypeOf (p : J) (eventSource : Str) : Except Str Str :=
  match pyIn "event_source_type".data p with
  | .error e => .error e
  | .ok true => .ok eventSource
  | .ok false => (jget p "event_type".data (J.str "push".data)).map jshow

/-- Structured outcome of one ingestion
(`{"status", "message", "details"}`). -/
inductive Outcome where
  | success (message : Str) (repoRid : Str) (commitSha : Option Str)
  | skipped (message : Str)
  | error (message : Str)
deriving DecidableEq

/-- Observable storage and lock effects of one ingestion, in order. -/
inductive Action where
  | upsertRepo (repoRid url : Str)
  | upsertEvent (eventRid repoRid : Str)
  | lockAcquire (key : Str)
  | lockRelease (key : Str)
deriving DecidableEq

/-- Embeds `RepositoryService.process_github_event_bundle` (repository.py
lines 37-169): normalize, upsert the repository, extract commit fields,
determine the event type, build the summary and upsert the event row.  Any
exception is caught and converted to an error outcome; state committed by
an earlier transaction survives the catch.  The trace records the committed
storage writes and any lock operations (there are none). -/
def processBundle (now : Nat) (fs : FailSpec) (db : DB) (kobjRid : Str) (p : J) :
    Outcome × DB × List Action :=
  match normalizePayload p with
  | .failed e => (.error e, db, [])
  | .skipUnknownBackfill m => (.skipped m, db, [])
  | .skipUnrecognized => (.skipped "Event doesn\x27t match any known format".data, db, [])
  | .recognized owner repo repoUrl eventSource =>
    match addRepositoryOp fs now db (ownerRepoToRepoRid owner repo) repoUrl with
    | .error e => (.error e, db, [])
    | .ok db1 =>
      match extractCommit p with
      | .error e => (.error e, db1, [.upsertRepo (ownerRepoToRepoRid owner repo) repoUrl])
      | .ok (shaJ, ts, _msg) =>
        match eventTypeOf p eventSource with
        | .error e => (.error e, db1, [.upsertRepo (ownerRepoToRepoRid owner repo) repoUrl])
        | .ok eventTypeStr =>
          match summarizeEvent eventTypeStr (ownerRepoToRepoRid owner repo)
              (if jTruthy shaJ then some (jshow shaJ) else none) p with
          | .error e => (.error e, db1, [.upsertRepo (ownerRepoToRepoRid owner repo) repoUrl])
          | .ok summary =>
            match addEventMetadataOp fs now db1 kobjRid (ownerRepoToRepoRid owner repo)
                eventTypeStr (if jTruthy shaJ then ts else [])
                (if jTruthy shaJ then some (jshow shaJ) else none) summary (some kobjRid) with
            | .error e => (.error e, db1, [.upsertRepo (ownerRepoToRepoRid owner repo) repoUrl])
            | .ok db2 =>
              (.success "Event metadata stored".data (ownerRepoToRepoRid owner repo)
                 (if jTruthy shaJ then some (jshow shaJ) else none),
               db2,
               [.upsertRepo (ownerRepoToRepoRid owner repo) repoUrl,
                .upsertEvent kobjRid (ownerRepoToRepoRid owner repo)])

/-- Embeds `cache_manager.with_repo_lock` as a sequential trace
transformer: normalize the key, acquire, run the operation, release on
every exit path (the Python `finally` runs on success, exception and
cancellation alike), and propagate the operation result or error
unchanged. -/
def withRepoLock (cwd repoDir : Str) (op : Except Str Outcome × List Action) :
    Except Str Outcome × List Action :=
  (op.1, .lockAcquire (lockKeyOf cwd repoDir) :: op.2 ++ [.lockRelease (lockKeyOf cwd repoDir)])

/-! ## Bundle handler and cache (handlers.handle_event_bundle) -/

/-- The manifest fingerprint (`manifest.sha256_hash`). -/
structure Manifest where
  sha256Hash : Nat
deriving DecidableEq

/-- A knowledge bundle: manifest plus contents. -/
structure Bundle where
  manifest : Option Manifest
  contents : Option J

/-- Cache plus index store: the state one bundle step acts on. -/
structure SysState where
  cache : List (Str × Bundle)
  db : DB

inductive EventClass where
  | newEvent
  | updated
  | unchanged
deriving DecidableEq

/-- The hash comparison of handlers.py lines 57-60: with both manifests
present compare the fingerprints; otherwise treat the content as changed. -/
def hashChanged (prev : Option Bundle) (m : Option Manifest) : Bool :=
  match prev with
  | some pb =>
    match pb.manifest, m with
    | some pm, some km => pm.sha256Hash != km.sha256Hash
    | _, _ => true
  | none => true

/-- The classification of handlers.py lines 55-68: a cached entry with an
equal fingerprint is UNCHANGED (STOP_CHAIN), a cached entry otherwise is an
UPDATE, no cached entry is NEW. -/
def classifyEvent (prev : Option Bundle) (m : Option Manifest) : EventClass :=
  if prev.isSome && !hashChanged prev m then .unchanged
  else if prev.isSome then .updated
  else .newEvent

/-- The cache upsert the processing pipeline performs after a handler
returns the knowledge object. -/
def cacheWrite (c : List (Str × Bundle)) (rid : Str) (b : Bundle) :
    List (Str × Bundle) :=
  c.filter (fun q => q.1 != rid) ++ [(rid, b)]

inductive StepResult where
  | stopped
  | passed (processed : Option Outcome)
deriving DecidableEq

/-- Embeds `handlers.handle_event_bundle` together with the processing
pipeline cache commit of the koi-net transport (the external collaborator
that caches the knowledge object once the handler chain returned it rather
than `STOP_CHAIN`): classify against the cached fingerprint; on UNCHANGED
stop with no write of any kind; otherwise run the repository service on
the payload (when present and truthy) and cache the bundle. -/
def bundleStep (now : Nat) (fs : FailSpec) (st : SysState) (rid : Str) (b : Bundle) :
    SysState × StepResult :=
  match classifyEvent (alook rid st.cache) b.manifest with
  | .unchanged => (st, .stopped)
  | _ =>
    match b.contents with
    | none => ({ st with cache := cacheWrite st.cache rid b }, .passed none)
    | some payload =>
      if jTruthy payload then
        ({ cache := cacheWrite st.cache rid b,
           db := (processBundle now fs st.db rid payload).2.1 },
         .passed (some (processBundle now fs st.db rid payload).1))
      else ({ st with cache := cacheWrite st.cache rid b }, .passed none)

/-! ## Network discovery (handlers.handle_network_discovery) -/

inductive KSource where
  | external
  | internalSrc
deriving DecidableEq

inductive NEventType where
  | newK
  | updateK
  | forgetK
deriving DecidableEq

/-- The validated node profile: the advertised event capability set
(`profile.provides.event`), as RID-type names. -/
structure PeerProfile where
  providesEvent : List Str
deriving DecidableEq

/-- The knowledge object a network handler receives, with the fields
`handle_network_discovery` inspects. -/
structure NetKobj where
  eventType : Option NEventType
  source : KSource
  profile : Option PeerProfile
  ridIsNode : Bool

/-- Observable network effects of the discovery coordinator, in order. -/
inductive NetAction where
  | proposeEdge (target : Str)
  | fetchRids (target : Str)
  | fetchBundles (rids : List Str)
  | handleBundle (bundleId : Str)
deriving DecidableEq

def githubEventName : Str := "GitHubEvent".data

/-- Embeds `handlers.handle_network_discovery`: only NEW external node
knowledge objects with a validated profile are considered; a peer that does
not advertise `GitHubEvent` triggers nothing; otherwise an edge proposal
(when the RID is a node RID), then the historical-RID fetch; bundles are
fetched and replayed only when at least one RID came back.  `ridsResp` is
the transport response (`none` models a falsy payload), `bundlesResp` the
fetched bundle identifiers. -/
def handleNetworkDiscovery (k : NetKobj) (rid : Str)
    (ridsResp : Option (List Str)) (bundlesResp : List Str) : List NetAction :=
  if k.eventType ≠ some .newK then []
  else if k.source ≠ .external then []
  else
    match k.profile with
    | none => []
    | some profile =>
      if githubEventName ∉ profile.providesEvent then []
      else
        (if k.ridIsNode then [NetAction.proposeEdge rid] else [])
        ++ NetAction.fetchRids rid ::
          (match ridsResp with
           | some rids =>
             if rids ≠ [] then
               NetAction.fetchBundles rids :: bundlesResp.map NetAction.handleBundle
             else []
           | none => [])

/-! ## Association-list lemmas -/

theorem alook_append {α : Type} (k : Str) (l1 l2 : List (Str × α)) :
    alook k (l1 ++ l2) = match alook k l1 with
      | some v => some v
      | none => alook k l2 := by
  induction l1 with
  | nil => simp [alook]
  | cons h t ih =>
    rcases h with ⟨k2, v⟩
    by_cases hk : k2 = k
    · simp [alook, hk]
    · simp [alook, hk, ih]

/-- Referential integrity of the index store: every stored event row
references an existing repository row. -/
def eventRefIntegrity (db : DB) : Prop :=
  ∀ q ∈ db.events, (alook q.2.repoRid db.repos).isSome = true

/-- C10: every event-metadata write preserves the invariant that each
stored event row references an existing repository row; when the referenced
repository is absent at write time a placeholder row with the RID-derived
URL `orn:<repo_rid>` is inserted by the same (single-transaction)
operation, so no event row is ever orphaned. -/
theorem c10_no_orphan_events (now : Nat) (db : DB)
    (eventRid repoRid eventType timestamp : Str) (commitSha : Option Str)
    (summary : Str) (bundleRid : Option Str)
    (hdb : eventRefIntegrity db) :
    eventRefIntegrity
      (addEventMetadata now db eventRid repoRid eventType timestamp commitSha summary bundleRid)
    ∧ (alook repoRid db.repos = none →
        alook repoRid
          (addEventMetadata now db eventRid repoRid eventType timestamp commitSha summary bundleRid).repos
          = some ⟨"orn:".data ++ repoRid, now, now⟩) := by
  constructor
  · intro q hq
    unfold addEventMetadata at hq ⊢
    simp only [List.mem_append] at hq
    have hrepos :
        ∀ r : Str, (alook r db.repos).isSome = true →
          (alook r (match alook repoRid db.repos with
            | some _ => db.repos
            | none => db.repos ++ [(repoRid, ⟨"orn:".data ++ repoRid, now, now⟩)])).isSome = true := by
      intro r hr
      cases hrep : alook repoRid db.repos with
      | some v =>
        dsimp only
        exact hr
      | none =>
        dsimp only
        rw [alook_append]
        cases h2 : alook r db.repos with
        | some v => simp
        | none => rw [h2] at hr; simp at hr
    rcases hq with hq | hq
    · exact hrepos q.2.repoRid (hdb q (List.mem_of_mem_filter hq))
    · simp only [List.mem_singleton] at hq
      subst hq
      cases hrep : alook repoRid db.repos with
      | some v => simp [hrep]
      | none => simp [hrep, alook_append, alook]
  · intro habs
    unfold addEventMetadata
    simp only [habs, alook_append, alook]
    simp

/-- C9: the discovery coordinator takes no action for a newly discovered
external peer whose advertised capability set lacks the monitored
GitHubEvent kind; when the set includes it, the coordinator proposes a
subscription edge and requests the peer historical event identifiers, and
when none are returned it never fetches bundles. -/
theorem c9_discovery_coordinator (k : NetKobj) (rid : Str) (profile : PeerProfile)
    (ridsResp : Option (List Str)) (bundlesResp : List Str)
    (hnew : k.eventType = some .newK) (hext : k.source = .external)
    (hprof : k.profile = some profile) :
    (githubEventName ∉ profile.providesEvent →
      handleNetworkDiscovery k rid ridsResp bundlesResp = [])
    ∧ (githubEventName ∈ profile.providesEvent → k.ridIsNode = true →
        NetAction.proposeEdge rid ∈ handleNetworkDiscovery k rid ridsResp bundlesResp
        ∧ NetAction.fetchRids rid ∈ handleNetworkDiscovery k rid ridsResp bundlesResp)
    ∧ ((ridsResp = none ∨ ridsResp = some []) →
        ∀ l, NetAction.fetchBundles l ∉ handleNetworkDiscovery k rid ridsResp bundlesResp) := by
  unfold handleNetworkDiscovery
  rw [hnew, hext, hprof]
  refine ⟨?_, ?_, ?_⟩
  · intro habs
    simp [habs]
  · intro hmem hnode
    simp [hmem, hnode]
  · rintro (hr | hr) l <;> subst hr
    · by_cases hmem : githubEventName ∈ profile.providesEvent
      · simp [hmem]
      · simp [hmem]
    · by_cases hmem : githubEventName ∈ profile.providesEvent
      · simp [hmem]
      · simp [hmem]

/-- C9 witness. -/
theorem c9_discovery_coordinator_witness :
    NetAction.proposeEdge "node1".data
        ∈ handleNetworkDiscovery
            ⟨some .newK, .external, some ⟨["GitHubEvent".data]⟩, true⟩
            "node1".data (some []) []
    ∧ NetAction.fetchRids "node1".data
        ∈ handleNetworkDiscovery
            ⟨some .newK, .external, some ⟨["GitHubEvent".data]⟩, true⟩
            "node1".data (some []) [] :=
  (c9_discovery_coordinator
    ⟨some .newK, .external, some ⟨["GitHubEvent".data]⟩, true⟩
    "node1".data ⟨["GitHubEvent".data]⟩ (some []) [] rfl rfl rfl).2.1
    (by decide) rfl

/-- C10 witness. -/
theorem c10_no_orphan_events_witness :
    eventRefIntegrity
      (addEventMetadata 7 ⟨[], []⟩ "evt1".data "repo1".data "push".data []
        none "s".data none)
    ∧ (alook "repo1".data (⟨[], []⟩ : DB).repos = none →
        alook "repo1".data
          (addEventMetadata 7 ⟨[], []⟩ "evt1".data "repo1".data "push".data []
            none "s".data none).repos
          = some ⟨"orn:".data ++ "repo1".data, 7, 7⟩) :=
  c10_no_orphan_events 7 ⟨[], []⟩ "evt1".data "repo1".data "push".data []
    none "s".data none (by intro q hq; simp at hq)

/-! ## Commit-URL parsing lemmas (claim C5) -/

theorem idxOf_append_cons (a : Str) (pre rest : List Str) (hpre : a ∉ pre) :
    idxOf a (pre ++ a :: rest) = pre.length := by
  induction pre with
  | nil => simp [idxOf]
  | cons x t ih =>
    have hx : ¬ x = a := fun h => hpre (by simp [h])
    have ht : a ∉ t := fun h => hpre (by simp [h])
    simp [idxOf, hx, ih ht]

theorem getD_append_right {α : Type} (pre l : List α) (k : Nat) (d : α) :
    (pre ++ l).getD (pre.length + k) d = l.getD k d := by
  induction pre with
  | nil => simp
  | cons x t ih =>
    have harith : (x :: t).length + k = (t.length + k) + 1 := by
      simp [Nat.succ_add]
    rw [List.cons_append, harith, List.getD_cons_succ, ih]

/-- A backfill-commit test payload carrying only the commit API URL. -/
def backfillCommitUrlPayload (url : Str) : J :=
  J.obj [("event_source_type".data, J.str "backfill_commit".data),
         ("payload".data, J.obj [("url".data, J.str url)])]

/-- C5: for a backfill-commit payload the owner and repo are the two path
segments following the first `repos` segment of the commit API URL
(so `.../repos/acme/widgets/commits/abc123` yields `acme` and `widgets`);
when the `repos` segment is absent, or fewer than two segments follow it,
the parse raises and ingestion returns an error outcome with the database
unchanged and no storage action taken. -/
theorem c5_backfill_commit_url_parsing
    (pre tail shortTail segs : List Str) (o r url url2 url3 : Str)
    (now : Nat) (fs : FailSpec) (db : DB) (kobjRid : Str) (e : Str)
    (hpre : "repos".data ∉ pre) (habs : "repos".data ∉ segs)
    (hshort : shortTail.length ≤ 1) :
    parseReposSegs (pre ++ "repos".data :: o :: r :: tail) url = .ok (o, r)
    ∧ parseReposSegs segs url2
        = .error ("ValueError: Cannot parse repository from commit URL: ".data ++ url2)
    ∧ parseReposSegs (pre ++ "repos".data :: shortTail) url3
        = .error ("ValueError: Cannot parse owner/repo from URL: ".data ++ url3)
    ∧ parseCommitUrl "https://api.github.com/repos/acme/widgets/commits/abc123".data
        = .ok ("acme".data, "widgets".data)
    ∧ (parseCommitUrl url = .error e →
        processBundle now fs db kobjRid (backfillCommitUrlPayload url)
          = (.error e, db, [])) := by
  refine ⟨?_, ?_, ?_, by rfl, ?_⟩
  · unfold parseReposSegs
    have hmem : "repos".data ∈ pre ++ "repos".data :: o :: r :: tail := by simp
    rw [if_pos hmem, idxOf_append_cons _ _ _ hpre]
    have hlen : (pre ++ "repos".data :: o :: r :: tail).length > pre.length + 2 := by
      rw [List.length_append, List.length_cons, List.length_cons, List.length_cons]
      omega
    rw [if_pos hlen]
    have h1 : (pre ++ "repos".data :: o :: r :: tail).getD (pre.length + 1) ([] : Str) = o := by
      rw [getD_append_right]
      rfl
    have h2 : (pre ++ "repos".data :: o :: r :: tail).getD (pre.length + 2) ([] : Str) = r := by
      rw [getD_append_right]
      rfl
    rw [h1, h2]
  · unfold parseReposSegs
    rw [if_neg habs]
  · unfold parseReposSegs
    have hmem : "repos".data ∈ pre ++ "repos".data :: shortTail := by simp
    rw [if_pos hmem, idxOf_append_cons _ _ _ hpre]
    have hlen : ¬ (pre ++ "repos".data :: shortTail).length > pre.length + 2 := by
      rw [List.length_append, List.length_cons]
      omega
    rw [if_neg hlen]
  · intro herr
    have hnorm : normalizePayload (backfillCommitUrlPayload url)
        = ofNormE (parseCommitUrl url >>= fun q =>
            .ok (q.1, q.2,
              "https://github.com/".data ++ q.1 ++ '/' :: q.2 ++ ".git".data,
              "commit".data)) := rfl
    unfold processBundle
    rw [hnorm, herr]
    rfl

/-- C5 witness. -/
theorem c5_backfill_commit_url_parsing_witness :
    parseReposSegs
        (["https:".data, [], "api.github.com".data]
          ++ "repos".data :: "acme".data :: "widgets".data :: ["commits".data, "abc123".data])
        "u".data
      = .ok ("acme".data, "widgets".data) :=
  (c5_backfill_commit_url_parsing
    ["https:".data, [], "api.github.com".data] ["commits".data, "abc123".data]
    [] ["x".data] "acme".data "widgets".data "u".data "u2".data "u3".data
    0 noFail ⟨[], []⟩ "k".data "e".data
    (by decide) (by decide) (by decide)).1

/-! ## Classification order (claim C4) -/

/-- A webhook-shaped test payload: a top-level `repository` object with
string-valued `owner.login`, `name` and `clone_url`, followed by arbitrary
further top-level fields — which may include the backfill discriminators,
so instantiations of the theorems below exercise the first-match-wins
priority of the classification chain. -/
def webhookPayload (o r u : Str) (extra : List (Str × J)) : J :=
  J.obj (("repository".data,
    J.obj [("owner".data, J.obj [("login".data, J.str o)]),
           ("name".data, J.str r),
           ("clone_url".data, J.str u)]) :: extra)

/-- C4: classification is first-match-wins in the fixed order webhook
(top-level `repository` object — chosen whatever other fields, including the
backfill discriminators, are present), then the backfill shapes
(repo-details before commit, dispatched on the `event_source_type` value);
the webhook event kind comes from the declared `event_type` field and
defaults to `push`; a payload matching none of the three known shapes
yields a skipped outcome with the database unchanged and no storage action
taken. -/
theorem c4_first_match_classification
    (o r u : Str) (extra : List (Str × J))
    (now : Nat) (fs : FailSpec) (db : DB) (kobjRid : Str)
    (fields : List (Str × J)) (v : Str) :
    (alook "event_type".data extra = none →
      normalizePayload (webhookPayload o r u extra) = .recognized o r u "push".data)
    ∧ (∀ et, alook "event_type".data extra = some (J.str et) →
        normalizePayload (webhookPayload o r u extra) = .recognized o r u et)
    ∧ (alook "repository".data fields = none →
        (alook "event_source_type".data fields = none ∨ alook "payload".data fields = none) →
        processBundle now fs db kobjRid (J.obj fields)
          = (.skipped "Event doesn\x27t match any known format".data, db, []))
    ∧ (alook "repository".data fields = none →
        alook "event_source_type".data fields = some (J.str v) →
        (alook "payload".data fields).isSome = true →
        v ≠ "backfill_repo_details".data → v ≠ "backfill_commit".data →
        processBundle now fs db kobjRid (J.obj fields)
          = (.skipped ("Unknown backfill event type: ".data ++ v), db, [])) := by
  have hweb : normalizePayload (webhookPayload o r u extra)
      = .recognized o r u (jshow ((alook "event_type".data extra).getD (J.str "push".data))) :=
    rfl
  refine ⟨?_, ?_, ?_, ?_⟩
  · intro hno
    rw [hweb, hno]
    rfl
  · intro et het
    rw [hweb, het]
    rfl
  · intro hrep hd
    have hskip : normalizePayload (J.obj fields) = .skipUnrecognized := by
      have e1 : pyIn "repository".data (J.obj fields) = .ok false := by
        show Except.ok (alook "repository".data fields).isSome = .ok false
        rw [hrep]
        rfl
      unfold normalizePayload
      rw [e1]
      rcases hd with hd | hd
      · have e2 : pyIn "event_source_type".data (J.obj fields) = .ok false := by
          show Except.ok (alook "event_source_type".data fields).isSome = .ok false
          rw [hd]
          rfl
        rw [e2]
      · cases hest : (alook "event_source_type".data fields).isSome with
        | false =>
          have e2 : pyIn "event_source_type".data (J.obj fields) = .ok false := by
            show Except.ok (alook "event_source_type".data fields).isSome = .ok false
            rw [hest]
          rw [e2]
        | true =>
          have e2 : pyIn "event_source_type".data (J.obj fields) = .ok true := by
            show Except.ok (alook "event_source_type".data fields).isSome = .ok true
            rw [hest]
          have e3 : pyIn "payload".data (J.obj fields) = .ok false := by
            show Except.ok (alook "payload".data fields).isSome = .ok false
            rw [hd]
            rfl
          rw [e2, e3]
    unfold processBundle
    rw [hskip]
  · intro hrep hest hpl hv1 hv2
    have hskip : normalizePayload (J.obj fields)
        = .skipUnknownBackfill ("Unknown backfill event type: ".data ++ v) := by
      have e1 : pyIn "repository".data (J.obj fields) = .ok false := by
        show Except.ok (alook "repository".data fields).isSome = .ok false
        rw [hrep]
        rfl
      have e2 : pyIn "event_source_type".data (J.obj fields) = .ok true := by
        show Except.ok (alook "event_source_type".data fields).isSome = .ok true
        rw [hest]
        rfl
      have e3 : pyIn "payload".data (J.obj fields) = .ok true := by
        show Except.ok (alook "payload".data fields).isSome = .ok true
        rw [hpl]
      have j1 : jindex (J.obj fields) "event_source_type".data = .ok (J.str v) := by
        show (match alook "event_source_type".data fields with
          | some w => Except.ok w
          | none => Except.error ("KeyError: ".data ++ "event_source_type".data)) = .ok (J.str v)
        rw [hest]
      unfold normalizePayload
      rw [e1, e2, e3]
      unfold backfillNorm
      rw [j1]
      show (if v = "backfill_repo_details".data then _ else
        if v = "backfill_commit".data then _ else
          NormResult.skipUnknownBackfill ("Unknown backfill event type: ".data ++ v)) = _
      rw [if_neg hv1, if_neg hv2]
    unfold processBundle
    rw [hskip]

/-- C4 witness. -/
theorem c4_first_match_classification_witness :
    normalizePayload
        (webhookPayload "acme".data "widgets".data "https://github.com/acme/widgets.git".data
          [("event_source_type".data, J.str "backfill_commit".data),
           ("payload".data, J.obj [])])
      = .recognized "acme".data "widgets".data
          "https://github.com/acme/widgets.git".data "push".data :=
  (c4_first_match_classification
    "acme".data "widgets".data "https://github.com/acme/widgets.git".data
    [("event_source_type".data, J.str "backfill_commit".data),
     ("payload".data, J.obj [])]
    0 noFail ⟨[], []⟩ "k".data [] "v".data).1 rfl

/-! ## Atomicity of one ingestion step (claim C2) -/

/-- C2 counterexample: starting from an empty store, a webhook ingestion in
which the event-upsert transaction fails reports an error outcome, yet the
repository record has already been committed by the earlier separate
repository-upsert transaction — the ingestion step is partially applied,
not all-or-nothing. -/
theorem c2_atomicity_counterexample :
    (processBundle 0 ⟨false, true⟩ ⟨[], []⟩ "evt1".data
        (webhookPayload "acme".data "widgets".data "u1".data [])).1
      = .error "sqlite3.OperationalError: database is locked".data
    ∧ (processBundle 0 ⟨false, true⟩ ⟨[], []⟩ "evt1".data
        (webhookPayload "acme".data "widgets".data "u1".data [])).2.1
      = ⟨[(ownerRepoToRepoRid "acme".data "widgets".data, ⟨"u1".data, 0, 0⟩)], []⟩
    ∧ (⟨[(ownerRepoToRepoRid "acme".data "widgets".data, ⟨"u1".data, 0, 0⟩)], []⟩ : DB)
      ≠ ⟨[], []⟩ :=
  ⟨rfl, rfl, by decide⟩

/-- C2 (amended): the repository-upsert and the event-upsert of one
ingestion are two separate transactions, each individually atomic: a
failure of the repository-upsert leaves the store unchanged and writes
nothing, while a failure of the event-upsert reports an error with the
repository-upsert already applied and no event row written; on success the
two upserts are applied in sequence as two storage writes. -/
theorem c2_ingestion_is_two_transactions
    (now : Nat) (db : DB) (kobjRid : Str) (fe : Bool) :
    processBundle now ⟨false, true⟩ db kobjRid
        (webhookPayload "acme".data "widgets".data "https://github.com/acme/widgets.git".data [])
      = (.error "sqlite3.OperationalError: database is locked".data,
         addRepository now db (ownerRepoToRepoRid "acme".data "widgets".data)
           "https://github.com/acme/widgets.git".data,
         [.upsertRepo (ownerRepoToRepoRid "acme".data "widgets".data)
            "https://github.com/acme/widgets.git".data])
    ∧ processBundle now ⟨true, fe⟩ db kobjRid
        (webhookPayload "acme".data "widgets".data "https://github.com/acme/widgets.git".data [])
      = (.error "sqlite3.OperationalError: database is locked".data, db, [])
    ∧ processBundle now noFail db kobjRid
        (webhookPayload "acme".data "widgets".data "https://github.com/acme/widgets.git".data [])
      = (.success "Event metadata stored".data
           (ownerRepoToRepoRid "acme".data "widgets".data) none,
         addEventMetadata now
           (addRepository now db (ownerRepoToRepoRid "acme".data "widgets".data)
             "https://github.com/acme/widgets.git".data)
           kobjRid (ownerRepoToRepoRid "acme".data "widgets".data)
           "push".data [] none "Push to acme/widgets".data (some kobjRid),
         [.upsertRepo (ownerRepoToRepoRid "acme".data "widgets".data)
            "https://github.com/acme/widgets.git".data,
          .upsertEvent kobjRid (ownerRepoToRepoRid "acme".data "widgets".data)]) :=
  ⟨rfl, rfl, rfl⟩

/-! ## Absence of the per-repository lock in the ingestion path (claim C3) -/

/-- C3 counterexample: a concrete successful webhook ingestion commits both
storage writes, and its complete effect trace contains no lock acquisition
or release — the ingestion does not run under the per-repository lock. -/
theorem c3_no_lock_counterexample :
    (processBundle 0 noFail ⟨[], []⟩ "evt1".data
        (webhookPayload "acme".data "widgets".data "u1".data [])).2.2
      = [.upsertRepo (ownerRepoToRepoRid "acme".data "widgets".data) "u1".data,
         .upsertEvent "evt1".data (ownerRepoToRepoRid "acme".data "widgets".data)] :=
  rfl

/-- C3 (amended): the lock helper `with_repo_lock` exists and, as a
sequential trace transformer, normalizes the key, brackets the guarded
operation with acquire/release — the release on every exit path — and
propagates the operation result or error unchanged; but
`process_github_event_bundle` never invokes it: no execution of the
ingestion, on any payload and any store state, ever acquires or releases
any lock. -/
theorem c3_lock_helper_never_used
    (now : Nat) (fs : FailSpec) (db : DB) (kobjRid : Str) (p : J) (k : Str)
    (cwd repoDir : Str) (op : Except Str Outcome × List Action) :
    (Action.lockAcquire k ∉ (processBundle now fs db kobjRid p).2.2
      ∧ Action.lockRelease k ∉ (processBundle now fs db kobjRid p).2.2)
    ∧ ((withRepoLock cwd repoDir op).1 = op.1
      ∧ (withRepoLock cwd repoDir op).2
          = .lockAcquire (lockKeyOf cwd repoDir) :: op.2
              ++ [.lockRelease (lockKeyOf cwd repoDir)]) := by
  refine ⟨⟨?_, ?_⟩, rfl, rfl⟩
  · unfold processBundle
    repeat' split
    all_goals simp
  · unfold processBundle
    repeat' split
    all_goals simp

/-! ## Deduplication lemmas (claim C1) -/

theorem addRepository_events (now : Nat) (db : DB) (repoRid url : Str) :
    (addRepository now db repoRid url).events = db.events := by
  unfold addRepository
  cases alook repoRid db.repos <;> rfl

theorem alook_filter_ne {α : Type} (k : Str) (l : List (Str × α)) :
    alook k (l.filter fun q => q.1 != k) = none := by
  induction l with
  | nil => rfl
  | cons a t ih =>
    rcases a with ⟨k2, v⟩
    by_cases hk : k2 = k
    · subst hk
      simp only [List.filter_cons]
      rw [if_neg (by simp)]
      exact ih
    · simp only [List.filter_cons]
      rw [if_pos (by simp [hk])]
      simp only [alook, if_neg hk]
      exact ih

theorem alook_cacheWrite (c : List (Str × Bundle)) (rid : Str) (b : Bundle) :
    alook rid (cacheWrite c rid b) = some b := by
  unfold cacheWrite
  rw [alook_append, alook_filter_ne]
  simp [alook]

theorem count_filter_append {α : Type} (k : Str) (l : List (Str × α)) (row : α) :
    ((l.filter (fun q => q.1 != k) ++ [(k, row)]).filter fun q => q.1 == k).length = 1 := by
  have h1 : (l.filter (fun q => q.1 != k)).filter (fun q => q.1 == k) = [] := by
    induction l with
    | nil => rfl
    | cons a t ih =>
      by_cases hk : a.1 = k
      · simp only [List.filter_cons]
        rw [if_neg (by simp [hk])]
        exact ih
      · simp only [List.filter_cons]
        rw [if_pos (by simp [hk])]
        simp only [List.filter_cons]
        rw [if_neg (by simp [hk])]
        exact ih
  rw [List.filter_append, h1]
  simp [List.filter_cons]

theorem processBundle_success_shape
    (now : Nat) (fs : FailSpec) (db : DB) (kobjRid : Str) (p : J)
    (msg rr : Str) (cs : Option Str)
    (h : (processBundle now fs db kobjRid p).1 = .success msg rr cs) :
    ∃ row, (processBundle now fs db kobjRid p).2.1.events
      = db.events.filter (fun q => q.1 != kobjRid) ++ [(kobjRid, row)] := by
  cases hn : normalizePayload p with
  | failed e =>
    unfold processBundle at h
    rw [hn] at h
    simp at h
  | skipUnknownBackfill m2 =>
    unfold processBundle at h
    rw [hn] at h
    simp at h
  | skipUnrecognized =>
    unfold processBundle at h
    rw [hn] at h
    simp at h
  | recognized o2 r2 u2 es =>
    unfold processBundle at h ⊢
    rw [hn] at h ⊢
    dsimp only at h ⊢
    cases ha : addRepositoryOp fs now db (ownerRepoToRepoRid o2 r2) u2 with
    | error e =>
      rw [ha] at h
      simp at h
    | ok db1 =>
      rw [ha] at h
      dsimp only at h ⊢
      have hev1 : db1.events = db.events := by
        unfold addRepositoryOp at ha
        by_cases hf : fs.failAddRepo = true
        · rw [if_pos hf] at ha
          exact absurd ha (by simp)
        · rw [if_neg hf] at ha
          simp only [Except.ok.injEq] at ha
          rw [← ha, addRepository_events]
      cases he : extractCommit p with
      | error e =>
        rw [he] at h
        simp at h
      | ok trip =>
        rw [he] at h
        obtain ⟨shaJ, ts, msg2⟩ := trip
        dsimp only at h ⊢
        cases het : eventTypeOf p es with
        | error e =>
          rw [het] at h
          simp at h
        | ok etStr =>
          rw [het] at h
          dsimp only at h ⊢
          cases hsum : summarizeEvent etStr (ownerRepoToRepoRid o2 r2)
              (if jTruthy shaJ then some (jshow shaJ) else none) p with
          | error e =>
            rw [hsum] at h
            simp at h
          | ok summary =>
            rw [hsum] at h
            dsimp only at h ⊢
            cases hadd : addEventMetadataOp fs now db1 kobjRid (ownerRepoToRepoRid o2 r2)
                etStr (if jTruthy shaJ then ts else [])
                (if jTruthy shaJ then some (jshow shaJ) else none) summary (some kobjRid) with
            | error e =>
              rw [hadd] at h
              simp at h
            | ok db2 =>
              rw [hadd] at h
              dsimp only at h ⊢
              have hdb2 : db2 = addEventMetadata now db1 kobjRid (ownerRepoToRepoRid o2 r2)
                  etStr (if jTruthy shaJ then ts else [])
                  (if jTruthy shaJ then some (jshow shaJ) else none) summary (some kobjRid) := by
                unfold addEventMetadataOp at hadd
                by_cases hf : fs.failAddEvent = true
                · rw [if_pos hf] at hadd
                  exact absurd hadd (by simp)
                · rw [if_neg hf] at hadd
                  simp only [Except.ok.injEq] at hadd
                  exact hadd.symm
              refine ⟨⟨ownerRepoToRepoRid o2 r2, etStr, (if jTruthy shaJ then ts else []),
                (if jTruthy shaJ then some (jshow shaJ) else none), summary, some kobjRid⟩, ?_⟩
              dsimp only
              rw [hdb2]
              unfold addEventMetadata
              dsimp only
              rw [hev1]

/-- C1: the deduplicator classifies a delivery as NEW when no prior bundle
is cached for the event identifier, as UNCHANGED when the cached
fingerprint equals the incoming one — in which case the step stops with the
state entirely unchanged (no storage write, no cache write) — and as
UPDATED when the fingerprints differ; consequently, a step that processed a
bundle successfully makes the identical re-delivery a stopped/unchanged
step, with exactly one stored event record for that identifier. -/
theorem c1_dedup_classification
    (m : Option Manifest) (c : Option J) (f g : Nat)
    (now : Nat) (fs : FailSpec) (st : SysState) (rid : Str) (b : Bundle)
    (mf : Manifest) :
    classifyEvent none m = .newEvent
    ∧ classifyEvent (some ⟨some ⟨f⟩, c⟩) (some ⟨f⟩) = .unchanged
    ∧ (f ≠ g → classifyEvent (some ⟨some ⟨f⟩, c⟩) (some ⟨g⟩) = .updated)
    ∧ (classifyEvent (alook rid st.cache) b.manifest = .unchanged →
        bundleStep now fs st rid b = (st, .stopped))
    ∧ (∀ st1 msg rr cs,
        bundleStep now fs st rid b = (st1, .passed (some (.success msg rr cs))) →
        b.manifest = some mf →
        bundleStep now fs st1 rid b = (st1, .stopped)
        ∧ (st1.db.events.filter fun q => q.1 == rid).length = 1) := by
  refine ⟨rfl, ?_, ?_, ?_, ?_⟩
  · simp [classifyEvent, hashChanged]
  · intro hfg
    simp [classifyEvent, hashChanged, hfg]
  · intro hcl
    unfold bundleStep
    rw [hcl]
  · intro st1 msg rr cs hstep hm
    unfold bundleStep at hstep
    cases hcl : classifyEvent (alook rid st.cache) b.manifest with
    | unchanged =>
      rw [hcl] at hstep
      simp at hstep
    | updated =>
      rw [hcl] at hstep
      dsimp only at hstep
      cases hc : b.contents with
      | none =>
        rw [hc] at hstep
        simp at hstep
      | some payload =>
        rw [hc] at hstep
        dsimp only at hstep
        by_cases ht : jTruthy payload = true
        · rw [if_pos ht] at hstep
          simp only [Prod.mk.injEq] at hstep
          obtain ⟨hst1, ho⟩ := hstep
          simp only [StepResult.passed.injEq, Option.some.injEq] at ho
          constructor
          · unfold bundleStep
            rw [← hst1]
            dsimp only
            rw [alook_cacheWrite]
            have : classifyEvent (some b) b.manifest = .unchanged := by
              simp [classifyEvent, hashChanged, hm]
            rw [this, hst1]
          · obtain ⟨row, hrow⟩ := processBundle_success_shape now fs st.db rid payload
              msg rr cs (by rw [← ho])
            rw [← hst1]
            dsimp only
            rw [hrow]
            exact count_filter_append rid st.db.events row
        · rw [if_neg ht] at hstep
          simp at hstep
    | newEvent =>
      rw [hcl] at hstep
      dsimp only at hstep
      cases hc : b.contents with
      | none =>
        rw [hc] at hstep
        simp at hstep
      | some payload =>
        rw [hc] at hstep
        dsimp only at hstep
        by_cases ht : jTruthy payload = true
        · rw [if_pos ht] at hstep
          simp only [Prod.mk.injEq] at hstep
          obtain ⟨hst1, ho⟩ := hstep
          simp only [StepResult.passed.injEq, Option.some.injEq] at ho
          constructor
          · unfold bundleStep
            rw [← hst1]
            dsimp only
            rw [alook_cacheWrite]
            have : classifyEvent (some b) b.manifest = .unchanged := by
              simp [classifyEvent, hashChanged, hm]
            rw [this, hst1]
          · obtain ⟨row, hrow⟩ := processBundle_success_shape now fs st.db rid payload
              msg rr cs (by rw [← ho])
            rw [← hst1]
            dsimp only
            rw [hrow]
            exact count_filter_append rid st.db.events row
        · rw [if_neg ht] at hstep
          simp at hstep

/-- Test fixture for the C1 witness: the bundle of a concrete webhook
event, and the system state reached after ingesting it once from the empty
state. -/
def c1FixtureBundle : Bundle :=
  ⟨some ⟨5⟩, some (webhookPayload "acme".data "widgets".data "u1".data [])⟩

def c1FixtureState : SysState :=
  ⟨[("evt1".data, c1FixtureBundle)],
   ⟨[(ownerRepoToRepoRid "acme".data "widgets".data, ⟨"u1".data, 0, 0⟩)],
    [("evt1".data,
      ⟨ownerRepoToRepoRid "acme".data "widgets".data, "push".data, [], none,
       "Push to acme/widgets".data, some "evt1".data⟩)]⟩⟩

/-- C1 witness: re-delivering the identical bundle after a successful first
ingestion stops as unchanged and leaves exactly one stored event record. -/
theorem c1_dedup_classification_witness :
    bundleStep 0 noFail c1FixtureState "evt1".data c1FixtureBundle
      = (c1FixtureState, .stopped)
    ∧ (c1FixtureState.db.events.filter fun q => q.1 == "evt1".data).length = 1 :=
  (c1_dedup_classification none none 0 0 0 noFail ⟨[], ⟨[], []⟩⟩ "evt1".data
    c1FixtureBundle ⟨5⟩).2.2.2.2
    c1FixtureState "Event metadata stored".data
    (ownerRepoToRepoRid "acme".data "widgets".data) none rfl rfl

end KoiGithub
